import Mathlib

/-!
# nRF52 parking-sensor application: a shallow embedding of `main.c`

The firmware is a single C file.  Its module-level variables become the fields
of `App`; every function that touches them becomes a Lean function from `App`
to an `Outcome`, which carries the new `App`, the ordered list of calls made to
code outside `main.c`, and a flag telling whether `APP_ERROR_CHECK` handed
control to the fatal error handler (which does not return).

Return codes of collaborators whose source is not part of `main.c`
(`ble_sdc_data_send`, `nrf_drv_saadc_buffer_convert`, `ble_advertising_start`)
are inputs of the handlers: a theorem either quantifies over them or names the
codes it assumes.

Machine integers are `Nat`/`Int` with explicit reductions: `uint16_t`
arithmetic is taken modulo `65536`, narrowing to `uint8_t` modulo `256`.
-/

namespace ParkingSensor

/-! ## Constants -/

/-- Value of `NRF_SUCCESS` (SDK `nrf_error.h`). -/
def NRF_SUCCESS : Nat := 0

/-- Value of `BLE_CONN_HANDLE_INVALID` (SDK `ble_types.h`). -/
def BLE_CONN_HANDLE_INVALID : Nat := 0xFFFF

/-- Value of `BLE_GAP_EVT_CONNECTED` (SDK `ble_gap.h`, `BLE_GAP_EVT_BASE`). -/
def BLE_GAP_EVT_CONNECTED : Nat := 0x10

/-- Value of `BLE_GAP_EVT_DISCONNECTED` (SDK `ble_gap.h`). -/
def BLE_GAP_EVT_DISCONNECTED : Nat := 0x11

/-- Value of `BLE_GATTS_EVT_WRITE` (SDK `ble_gatts.h`, `BLE_GATTS_EVT_BASE`). -/
def BLE_GATTS_EVT_WRITE : Nat := 0x50

/-- Value of `NRF_DRV_SAADC_EVT_DONE` (first enumerator of `nrf_drv_saadc_evt_type_t`). -/
def NRF_DRV_SAADC_EVT_DONE : Nat := 0

/-- Value of `BLE_ADV_MODE_SLOW` (SDK `ble_advertising.h`). -/
def BLE_ADV_MODE_SLOW : Nat := 4

/-- Line 82: `#define SAMPLES_IN_BUFFER 30`. -/
def SAMPLES_IN_BUFFER : Nat := 30

/-! ## Data model -/

/-- The part of `ble_evt_t` that `main.c` reads: `header.evt_id` and
`evt.gap_evt.conn_handle`. -/
structure BleEvt where
  evt_id : Nat
  conn_handle : Nat
deriving DecidableEq, Repr

/-- The part of `nrf_drv_saadc_evt_t` that `main.c` reads: `type` and the sample
buffer `data.done.p_buffer` (elements are `nrf_saadc_value_t`, a signed 16-bit
integer). -/
structure SaadcEvt where
  type : Nat
  p_buffer : List Int
deriving DecidableEq, Repr

/-- Module-level state of `main.c`.
* `m_conn_handle` (line 86, `uint16_t`), `m_old_value` (line 93, `uint8_t`),
  `m_buffer_bat` (line 89, `uint32_t`);
* `ppi_enabled`: whether `m_ppi_channel` currently routes the timer compare
  event to the SAADC sample task;
* `gpio_dir`, `gpio_out`: the `NRF_GPIO->DIR` and `NRF_GPIO->OUT` registers. -/
structure App where
  m_conn_handle : Nat
  m_old_value : Nat
  m_buffer_bat : Nat
  ppi_enabled : Bool
  gpio_dir : Nat
  gpio_out : Nat
deriving DecidableEq, Repr

/-- Calls that leave `main.c`, in the order they are made.  The six
constructors ending in `_ble_evt`/`_handler` with an event argument record the
six statements of `ble_evt_dispatch`; `on_connect`, `on_disconnect` and
`on_write` are the service functions called by `ble_sdc_on_ble_evt`. -/
inductive Call where
  | ble_conn_state_on_ble_evt (e : BleEvt)
  | ble_conn_params_on_ble_evt (e : BleEvt)
  | on_ble_evt (e : BleEvt)
  | ble_sdc_on_ble_evt (e : BleEvt)
  | ble_advertising_on_ble_evt (e : BleEvt)
  | pm_ble_evt_handler (e : BleEvt)
  | on_connect (e : BleEvt)
  | on_disconnect (e : BleEvt)
  | on_write (e : BleEvt)
  | ble_sdc_data_send (p_data : List Nat) (length : Nat)
  | nrf_drv_ppi_channel_enable
  | nrf_drv_ppi_channel_disable
  | nrf_drv_saadc_buffer_convert (size : Nat)
  | ble_advertising_start (mode : Nat)
  | app_error_handler (err_code : Nat)
deriving DecidableEq, Repr

/-- Result of running a piece of `main.c`: the state reached, the calls made,
and whether the fatal error handler was entered (execution stops there). -/
structure Outcome where
  app : App
  calls : List Call
  fault : Bool
deriving DecidableEq, Repr

/-- Falling through without any call. -/
def Outcome.ret (st : App) : Outcome := ⟨st, [], false⟩

/-- One call that returns to the caller. -/
def Outcome.call (st : App) (c : Call) : Outcome := ⟨st, [c], false⟩

/-- Sequential composition `o; k`: nothing of `k` runs once the fatal error
handler has been entered. -/
def Outcome.bind (o : Outcome) (k : App → Outcome) : Outcome :=
  if o.fault then o
  else ⟨(k o.app).app, o.calls ++ (k o.app).calls, (k o.app).fault⟩

/-- The macro `APP_ERROR_CHECK(err_code)`: a code other than `NRF_SUCCESS`
enters `app_error_handler`, which never returns. -/
def APP_ERROR_CHECK (st : App) (err_code : Nat) : Outcome :=
  if err_code ≠ NRF_SUCCESS then ⟨st, [Call.app_error_handler err_code], true⟩
  else Outcome.ret st

/-- The statement pair
`err_code = ble_sdc_data_send(&m_sdc, data_to_send, length); APP_ERROR_CHECK(err_code);`
with `send_err` the code the service returns. -/
def send_checked (st : App) (data_to_send : List Nat) (length : Nat) (send_err : Nat) : Outcome :=
  (Outcome.call st (Call.ble_sdc_data_send data_to_send length)).bind
    (fun st1 => APP_ERROR_CHECK st1 send_err)

/-! ## Sampling trigger channel (lines 472-484) -/

/-- Modelled from the spec: `nrf_drv_ppi_channel_enable` of the SDK PPI driver
(not part of `main.c`).  For the channel allocated by
`saadc_sampling_event_init` it switches routing on and returns `NRF_SUCCESS`. -/
def nrf_drv_ppi_channel_enable (st : App) : Nat × App :=
  (NRF_SUCCESS, { st with ppi_enabled := true })

/-- Modelled from the spec: `nrf_drv_ppi_channel_disable` of the SDK PPI driver
(not part of `main.c`).  It switches routing off, is idempotent, and returns
`NRF_SUCCESS` for the allocated channel. -/
def nrf_drv_ppi_channel_disable (st : App) : Nat × App :=
  (NRF_SUCCESS, { st with ppi_enabled := false })

/-- Lines 473-477. -/
def saadc_sampling_event_enable (st : App) : Outcome :=
  (Outcome.call (nrf_drv_ppi_channel_enable st).2 Call.nrf_drv_ppi_channel_enable).bind
    (fun st1 => APP_ERROR_CHECK st1 (nrf_drv_ppi_channel_enable st).1)

/-- Lines 480-484. -/
def saadc_sampling_event_disable (st : App) : Outcome :=
  (Outcome.call (nrf_drv_ppi_channel_disable st).2 Call.nrf_drv_ppi_channel_disable).bind
    (fun st1 => APP_ERROR_CHECK st1 (nrf_drv_ppi_channel_disable st).1)

/-! ## Sample aggregation and hysteresis filter (lines 487-524) -/

/-- Conversion of a C `int` to `uint16_t`. -/
def to_uint16 (z : Int) : Nat := (z % 65536).toNat

/-- Conversion of an unsigned value to `uint8_t`. -/
def to_uint8 (n : Nat) : Nat := n % 256

/-- Lines 498-501 after `n` iterations: `value = value + p_buffer[i]` for
`i = 0 .. n-1`, starting from `value = 0`; the sum is formed in `int` and
stored back into the `uint16_t` accumulator.  The driver hands over the
30-element `m_adc_buf`; an index past the end of the list reads 0. -/
def sum_loop (p_buffer : List Int) (n : Nat) : Nat :=
  (List.range n).foldl (fun value i => to_uint16 ((value : Int) + p_buffer.getD i 0)) 0

/-- Lines 492-502: the scalar held by `value` when the filter starts. -/
def batch_mean (p_buffer : List Int) : Nat :=
  sum_loop p_buffer SAMPLES_IN_BUFFER / SAMPLES_IN_BUFFER

/-- Lines 504-522: the hysteresis filter run on the averaged `value`. -/
def saadc_filter (st : App) (value : Nat) (send_err : Nat) : Outcome :=
  if value ≤ 254 then
    if value > st.m_old_value then
      send_checked { st with m_old_value := to_uint8 value } [to_uint8 value] 1 send_err
    else if value ≤ st.m_old_value ∧ value ≥ 25 then
      send_checked st [st.m_old_value] 1 send_err
    else if value ≤ st.m_old_value ∧ value < 25 then
      send_checked { st with m_old_value := 0 } [to_uint8 value] 1 send_err
    else Outcome.ret st
  else Outcome.ret st

/-- Lines 487-524.  `convert_err` is the code returned by
`nrf_drv_saadc_buffer_convert`, `send_err` the one returned by
`ble_sdc_data_send`. -/
def saadc_event_handler (st : App) (p_event : SaadcEvt) (convert_err send_err : Nat) : Outcome :=
  if p_event.type = NRF_DRV_SAADC_EVT_DONE then
    ((Outcome.call st (Call.nrf_drv_saadc_buffer_convert SAMPLES_IN_BUFFER)).bind
      (fun st1 => APP_ERROR_CHECK st1 convert_err)).bind
      (fun st2 => saadc_filter st2 (batch_mean p_event.p_buffer) send_err)
  else Outcome.ret st

/-- The filter applied to a sequence of averaged readings, each paired with
the code `ble_sdc_data_send` returns for it. -/
def saadc_filter_seq (st : App) : List (Nat × Nat) → Outcome
  | [] => Outcome.ret st
  | r :: rest => (saadc_filter st r.1 r.2).bind (fun st1 => saadc_filter_seq st1 rest)

/-! ## BLE event handlers (lines 165-193, 278-318, 585-592) -/

/-- Lines 585-592. -/
def send_battery_low_warning (st : App) (send_err : Nat) : Outcome :=
  if st.m_buffer_bat < 255 then send_checked st [69] 1 send_err
  else Outcome.ret st

/-- Lines 165-193.  The two pointer arguments are `none` when `NULL`. -/
def ble_sdc_on_ble_evt (st : App) (p_sdc : Option Unit) (p_ble_evt : Option BleEvt)
    (send_err : Nat) : Outcome :=
  match p_sdc, p_ble_evt with
  | some _, some e =>
    if e.evt_id = BLE_GAP_EVT_CONNECTED then
      Outcome.call st (Call.on_connect e)
    else if e.evt_id = BLE_GAP_EVT_DISCONNECTED then
      (Outcome.call st (Call.on_disconnect e)).bind saadc_sampling_event_disable
    else if e.evt_id = BLE_GATTS_EVT_WRITE then
      ((Outcome.call st (Call.on_write e)).bind
        (fun st1 => send_battery_low_warning st1 send_err)).bind saadc_sampling_event_enable
    else Outcome.ret st
  | _, _ => Outcome.ret st

/-- Lines 278-298. -/
def on_ble_evt (st : App) (p_ble_evt : BleEvt) : Outcome :=
  if p_ble_evt.evt_id = BLE_GAP_EVT_CONNECTED then
    Outcome.ret { st with m_conn_handle := p_ble_evt.conn_handle, gpio_out := 1 <<< 6 }
  else if p_ble_evt.evt_id = BLE_GAP_EVT_DISCONNECTED then
    Outcome.ret { st with m_conn_handle := BLE_CONN_HANDLE_INVALID, gpio_out := 0 <<< 6 }
  else Outcome.ret st

/-- Lines 309-318.  The four library handlers are recorded as calls that
return; the two handlers defined in `main.c` are recorded and then run. -/
def ble_evt_dispatch (st : App) (p_ble_evt : BleEvt) (send_err : Nat) : Outcome :=
  (((((((Outcome.call st (Call.ble_conn_state_on_ble_evt p_ble_evt)).bind
    (fun st1 => Outcome.call st1 (Call.ble_conn_params_on_ble_evt p_ble_evt))).bind
    (fun st2 => Outcome.call st2 (Call.on_ble_evt p_ble_evt))).bind
    (fun st3 => on_ble_evt st3 p_ble_evt)).bind
    (fun st4 => Outcome.call st4 (Call.ble_sdc_on_ble_evt p_ble_evt))).bind
    (fun st5 => ble_sdc_on_ble_evt st5 (some ()) (some p_ble_evt) send_err)).bind
    (fun st6 => Outcome.call st6 (Call.ble_advertising_on_ble_evt p_ble_evt))).bind
    (fun st7 => Outcome.call st7 (Call.pm_ble_evt_handler p_ble_evt))

/-! ## Boot and event traces -/

/-- State when `main` reaches line 613: static initialisers of lines 86-93,
the channel allocated but not enabled by `saadc_sampling_event_init`, and
lines 610-611 for the GPIO registers. -/
def boot : App :=
  { m_conn_handle := BLE_CONN_HANDLE_INVALID
    m_old_value := 0
    m_buffer_bat := 0
    ppi_enabled := false
    gpio_dir := 1 <<< 6
    gpio_out := 0 <<< 6 }

/-- Lines 613-614 of `main`, reached when every initialisation call before
them succeeded: slow advertising is started. -/
def main (adv_err : Nat) : Outcome :=
  (Outcome.call boot (Call.ble_advertising_start BLE_ADV_MODE_SLOW)).bind
    (fun st1 => APP_ERROR_CHECK st1 adv_err)

/-- One asynchronous input: a BLE stack event delivered to `ble_evt_dispatch`,
or a SAADC driver event delivered to `saadc_event_handler`, each with the
return codes the collaborators give while it is handled. -/
inductive Input where
  | ble (e : BleEvt) (send_err : Nat)
  | saadc (p_event : SaadcEvt) (convert_err send_err : Nat)
deriving DecidableEq, Repr

/-- Handling one input. -/
def step (st : App) : Input → Outcome
  | Input.ble e send_err => ble_evt_dispatch st e send_err
  | Input.saadc p_event convert_err send_err => saadc_event_handler st p_event convert_err send_err

/-- Handling a sequence of inputs in arrival order; the device handles nothing
after a fatal error. -/
def run (st : App) : List Input → Outcome
  | [] => Outcome.ret st
  | i :: rest => (step st i).bind (fun st1 => run st1 rest)

/-! ## Observations on call lists -/

/-- The notification sends among a list of calls, in order: the payload bytes
and the length argument of each `ble_sdc_data_send`. -/
def notifications : List Call → List (List Nat × Nat)
  | [] => []
  | Call.ble_sdc_data_send p_data length :: cs => (p_data, length) :: notifications cs
  | _ :: cs => notifications cs

/-- Whether the BLE stack holds a link after delivering the inputs, given
whether it held one before (`up`): the last connect or disconnect event
decides. -/
def link_up (up : Bool) : List Input → Bool
  | [] => up
  | Input.ble e _ :: rest =>
    if e.evt_id = BLE_GAP_EVT_CONNECTED then link_up true rest
    else if e.evt_id = BLE_GAP_EVT_DISCONNECTED then link_up false rest
    else link_up up rest
  | Input.saadc _ _ _ :: rest => link_up up rest

/-- Whether a control-write event has been delivered since the last disconnect
event (since the start, with initial value `w`, when there was none). -/
def write_seen (w : Bool) : List Input → Bool
  | [] => w
  | Input.ble e _ :: rest =>
    if e.evt_id = BLE_GAP_EVT_DISCONNECTED then write_seen false rest
    else if e.evt_id = BLE_GATTS_EVT_WRITE then write_seen true rest
    else write_seen w rest
  | Input.saadc _ _ _ :: rest => write_seen w rest

/-- What the BLE stack guarantees about the events it delivers, given whether
it holds a link at the start (`up`): a connect event carries a valid
connection handle, and a write event is delivered only while the stack holds
a link.  SAADC events are not restricted. -/
def stack_ok (up : Bool) : List Input → Bool
  | [] => true
  | Input.ble e _ :: rest =>
    if e.evt_id = BLE_GAP_EVT_CONNECTED then
      decide (e.conn_handle ≠ BLE_CONN_HANDLE_INVALID) && stack_ok true rest
    else if e.evt_id = BLE_GAP_EVT_DISCONNECTED then stack_ok false rest
    else if e.evt_id = BLE_GATTS_EVT_WRITE then up && stack_ok up rest
    else stack_ok up rest
  | Input.saadc _ _ _ :: rest => stack_ok up rest

/-- Number of `saadc_sampling_event_enable` actions in a list of calls (each
action is one `nrf_drv_ppi_channel_enable` call). -/
def enable_count (calls : List Call) : Nat :=
  calls.count Call.nrf_drv_ppi_channel_enable

theorem notifications_append (xs ys : List Call) :
    notifications (xs ++ ys) = notifications xs ++ notifications ys := by
  induction xs with
  | nil => rfl
  | cons c cs ih => cases c <;> simp [notifications, ih]

theorem send_checked_app (st : App) (d : List Nat) (n send_err : Nat) :
    (send_checked st d n send_err).app = st := by
  unfold send_checked Outcome.bind Outcome.call APP_ERROR_CHECK Outcome.ret
  by_cases h : send_err = NRF_SUCCESS <;> simp [h]

theorem send_checked_notifications (st : App) (d : List Nat) (n send_err : Nat) :
    notifications (send_checked st d n send_err).calls = [(d, n)] := by
  unfold send_checked Outcome.bind Outcome.call APP_ERROR_CHECK Outcome.ret
  by_cases h : send_err = NRF_SUCCESS <;> simp [h, notifications]

theorem send_checked_fault (st : App) (d : List Nat) (n send_err : Nat) :
    (send_checked st d n send_err).fault = decide (send_err ≠ NRF_SUCCESS) := by
  unfold send_checked Outcome.bind Outcome.call APP_ERROR_CHECK Outcome.ret
  by_cases h : send_err = NRF_SUCCESS <;> simp [h]

theorem to_uint8_of_le (r : Nat) (h : r ≤ 254) : to_uint8 r = r := by
  unfold to_uint8
  omega

/-! ## Hysteresis filter -/

/-- C1 (monotonic rise): when the averaged reading `r` is strictly above the
stored `m_old_value` and at most 254, one run of the filter makes exactly one
notification send, of length 1 with payload `r`, and stores `r` in
`m_old_value`, leaving every other variable as it was. -/
theorem filter_rise (st : App) (r send_err : Nat)
    (hrise : st.m_old_value < r) (hmax : r ≤ 254) :
    notifications (saadc_filter st r send_err).calls = [([r], 1)] ∧
    (saadc_filter st r send_err).app.m_old_value = r ∧
    (saadc_filter st r send_err).app = { st with m_old_value := r } := by
  have h8 := to_uint8_of_le r hmax
  simp [saadc_filter, hmax, hrise, h8, send_checked_app, send_checked_notifications]

/-- Instance of C1: stored value 17, reading 200. -/
theorem filter_rise_witness :
    notifications (saadc_filter { boot with m_old_value := 17 } 200 0).calls = [([200], 1)] ∧
    (saadc_filter { boot with m_old_value := 17 } 200 0).app.m_old_value = 200 ∧
    (saadc_filter { boot with m_old_value := 17 } 200 0).app
      = { { boot with m_old_value := 17 } with m_old_value := 200 } :=
  filter_rise { boot with m_old_value := 17 } 200 0 (by decide) (by decide)

/-- C2 (sticky hold): when the reading `r` lies in `[25, 254]` and does not
exceed the stored `m_old_value`, one run of the filter makes exactly one
notification send, of length 1 whose payload is the held `m_old_value` (not
`r`), and leaves the state, `m_old_value` included, unchanged. -/
theorem filter_hold (st : App) (r send_err : Nat)
    (hlow : 25 ≤ r) (hmax : r ≤ 254) (hle : r ≤ st.m_old_value) :
    notifications (saadc_filter st r send_err).calls = [([st.m_old_value], 1)] ∧
    (saadc_filter st r send_err).app.m_old_value = st.m_old_value ∧
    (saadc_filter st r send_err).app = st := by
  have hn : ¬ st.m_old_value < r := by omega
  simp [saadc_filter, hmax, hn, hle, hlow, send_checked_app, send_checked_notifications]

/-- Instance of C2 on the sequence `[50, 30]` from the boot state: the reading
50 is adopted and sent, then the reading 30 is answered with the held 50. -/
theorem filter_hold_witness :
    ((saadc_filter boot 50 0).app.m_old_value = 50 ∧
      notifications (saadc_filter boot 50 0).calls = [([50], 1)]) ∧
    (notifications (saadc_filter (saadc_filter boot 50 0).app 30 0).calls = [([50], 1)] ∧
      (saadc_filter (saadc_filter boot 50 0).app 30 0).app.m_old_value = 50 ∧
      (saadc_filter (saadc_filter boot 50 0).app 30 0).app = (saadc_filter boot 50 0).app) :=
  ⟨by decide, filter_hold (saadc_filter boot 50 0).app 30 0 (by decide) (by decide) (by decide)⟩

/-- C3 (low reset): when the reading `r` is below 25 and does not exceed the
stored `m_old_value` (equality included), one run of the filter makes exactly
one notification send, of length 1 whose payload is the raw reading `r`, and
sets `m_old_value` to 0, leaving every other variable as it was. -/
theorem filter_reset (st : App) (r send_err : Nat)
    (hlow : r < 25) (hle : r ≤ st.m_old_value) :
    notifications (saadc_filter st r send_err).calls = [([r], 1)] ∧
    (saadc_filter st r send_err).app.m_old_value = 0 ∧
    (saadc_filter st r send_err).app = { st with m_old_value := 0 } := by
  have hmax : r ≤ 254 := by omega
  have hn : ¬ st.m_old_value < r := by omega
  have hn25 : ¬ 25 ≤ r := by omega
  have h8 := to_uint8_of_le r hmax
  simp [saadc_filter, hmax, hn, hle, hlow, hn25, h8, send_checked_app,
    send_checked_notifications]

/-- Instance of C3 on the sequence `[50, 10]` from the boot state: the reading
50 is adopted and sent, then the reading 10 is sent raw and the state drops
to 0. -/
theorem filter_reset_witness :
    ((saadc_filter boot 50 0).app.m_old_value = 50 ∧
      notifications (saadc_filter boot 50 0).calls = [([50], 1)]) ∧
    (notifications (saadc_filter (saadc_filter boot 50 0).app 10 0).calls = [([10], 1)] ∧
      (saadc_filter (saadc_filter boot 50 0).app 10 0).app.m_old_value = 0 ∧
      (saadc_filter (saadc_filter boot 50 0).app 10 0).app
        = { (saadc_filter boot 50 0).app with m_old_value := 0 }) :=
  ⟨by decide, filter_reset (saadc_filter boot 50 0).app 10 0 (by decide) (by decide)⟩

/-! ## Out-of-range readings -/

theorem Outcome.ret_bind (st : App) (k : App → Outcome) : (Outcome.ret st).bind k = k st := by
  simp [Outcome.bind, Outcome.ret]

theorem filter_out_of_range (st : App) (r send_err : Nat) (h : 254 < r) :
    saadc_filter st r send_err = Outcome.ret st := by
  have hn : ¬ r ≤ 254 := by omega
  simp [saadc_filter, hn]

theorem filter_seq_drop (rs : List (Nat × Nat)) : ∀ st : App,
    saadc_filter_seq st rs = saadc_filter_seq st (rs.filter (fun p => decide (p.1 ≤ 254))) := by
  induction rs with
  | nil => intro st; rfl
  | cons p rest ih =>
    intro st
    by_cases hp : p.1 ≤ 254
    · have hk : (fun st1 => saadc_filter_seq st1 rest)
          = (fun st1 => saadc_filter_seq st1 (rest.filter (fun p => decide (p.1 ≤ 254)))) :=
        funext ih
      simp [List.filter, hp, saadc_filter_seq, hk]
    · have hgt : 254 < p.1 := by omega
      simp [List.filter, hp, saadc_filter_seq, filter_out_of_range st p.1 p.2 hgt,
        Outcome.ret_bind, ih st]

/-- C4 (out-of-range discard): a reading above 254 leaves the whole state,
`m_old_value` included, unchanged, makes no call at all (so no notification
send) and does not enter the fatal error handler; consequently, over any
sequence of readings, the filter behaves exactly as on the sequence with the
readings above 254 removed. -/
theorem filter_discards_above_254 (st : App) (rs : List (Nat × Nat)) :
    (∀ r send_err : Nat, 254 < r →
      (saadc_filter st r send_err).app = st ∧
      (saadc_filter st r send_err).calls = [] ∧
      (saadc_filter st r send_err).fault = false) ∧
    saadc_filter_seq st rs = saadc_filter_seq st (rs.filter (fun p => decide (p.1 ≤ 254))) := by
  refine ⟨?_, filter_seq_drop rs st⟩
  intro r send_err h
  rw [filter_out_of_range st r send_err h]
  exact ⟨rfl, rfl, rfl⟩

/-- Instance of C4: stored value 50, reading 255, whatever the send would
return. -/
theorem filter_discards_above_254_witness :
    (saadc_filter { boot with m_old_value := 50 } 255 7).app = { boot with m_old_value := 50 } ∧
    (saadc_filter { boot with m_old_value := 50 } 255 7).calls = [] ∧
    (saadc_filter { boot with m_old_value := 50 } 255 7).fault = false :=
  (filter_discards_above_254 { boot with m_old_value := 50 } [(255, 7)]).1 255 7 (by decide)

/-! ## Batch mean -/

theorem sum_loop_succ (b : List Int) (n : Nat) :
    sum_loop b (n + 1) = to_uint16 ((sum_loop b n : Int) + b.getD n 0) := by
  simp [sum_loop, List.range_succ, List.foldl_append]

theorem sum_loop_take (b : List Int) (hb : ∀ x ∈ b, 0 ≤ x ∧ x ≤ 255) :
    ∀ n, n ≤ b.length → n ≤ 257 →
      (sum_loop b n : Int) = (b.take n).sum ∧ 0 ≤ (b.take n).sum ∧
        (b.take n).sum ≤ 255 * (n : Int) := by
  intro n
  induction n with
  | zero => intro _ _; simp [sum_loop]
  | succ n ih =>
    intro hlen h257
    obtain ⟨h1, h2, h3⟩ := ih (by omega) (by omega)
    have hlt : n < b.length := by omega
    have hx := hb b[n] (List.getElem_mem hlt)
    have hs : (b.take (n + 1)).sum = (b.take n).sum + b[n] := List.sum_take_succ b n hlt
    have hg : b.getD n 0 = b[n] := List.getD_eq_getElem b 0 hlt
    rw [sum_loop_succ, hs, hg, h1]
    refine ⟨?_, by omega, by push_cast; omega⟩
    unfold to_uint16
    have : 0 ≤ (b.take n).sum + b[n] := by omega
    have : (b.take n).sum + b[n] < 65536 := by omega
    rw [Int.emod_eq_of_lt (by omega) (by omega)]
    omega

/-- C5 (batch mean): for a completed batch of exactly 30 samples, each in
`[0, 255]`: (1) at every iteration of the summation loop the `int` sum
`value + p_buffer[i]` is below 65536, so storing it into the `uint16_t`
accumulator changes nothing; (2) the accumulator ends as the exact sum, which
is at most 7650; (3) the scalar `value` equals the truncating quotient
`sum / 30`, which is the floor of the rational mean and is at most 255; and
(4) `saadc_event_handler` re-arms the conversion and then runs the filter on
exactly that scalar. -/
theorem batch_mean_exact (st : App) (p_event : SaadcEvt) (convert_err send_err : Nat)
    (htype : p_event.type = NRF_DRV_SAADC_EVT_DONE)
    (hlen : p_event.p_buffer.length = SAMPLES_IN_BUFFER)
    (hrange : ∀ x ∈ p_event.p_buffer, 0 ≤ x ∧ x ≤ 255) :
    (∀ i, i < SAMPLES_IN_BUFFER →
      (sum_loop p_event.p_buffer i : Int) + p_event.p_buffer.getD i 0 < 65536 ∧
      (sum_loop p_event.p_buffer (i + 1) : Int)
        = (sum_loop p_event.p_buffer i : Int) + p_event.p_buffer.getD i 0) ∧
    (sum_loop p_event.p_buffer SAMPLES_IN_BUFFER : Int) = p_event.p_buffer.sum ∧
    p_event.p_buffer.sum ≤ 7650 ∧
    (batch_mean p_event.p_buffer : Int) = p_event.p_buffer.sum / 30 ∧
    (batch_mean p_event.p_buffer : Int) = ⌊(p_event.p_buffer.sum : ℚ) / 30⌋ ∧
    batch_mean p_event.p_buffer ≤ 255 ∧
    saadc_event_handler st p_event convert_err send_err
      = ((Outcome.call st (Call.nrf_drv_saadc_buffer_convert SAMPLES_IN_BUFFER)).bind
          (fun st1 => APP_ERROR_CHECK st1 convert_err)).bind
          (fun st2 => saadc_filter st2 (p_event.p_buffer.sum / 30).toNat send_err) := by
  have h30 : SAMPLES_IN_BUFFER = 30 := rfl
  rw [h30] at hlen
  have hpre := sum_loop_take p_event.p_buffer hrange
  obtain ⟨hs, h0, hub⟩ := hpre 30 (by omega) (by omega)
  have htake : p_event.p_buffer.take 30 = p_event.p_buffer := by
    rw [← hlen]; exact List.take_length _
  rw [htake] at hs h0 hub
  have hmean : (batch_mean p_event.p_buffer : Int) = p_event.p_buffer.sum / 30 := by
    unfold batch_mean
    rw [h30]
    push_cast
    rw [hs]
  refine ⟨?_, by rw [h30]; exact hs, by omega, hmean, ?_, ?_, ?_⟩
  · intro i hi
    rw [h30] at hi
    obtain ⟨a1, a2, a3⟩ := hpre i (by omega) (by omega)
    obtain ⟨b1, b2, b3⟩ := hpre (i + 1) (by omega) (by omega)
    have hlt : i < p_event.p_buffer.length := by omega
    have hsum : (p_event.p_buffer.take (i + 1)).sum
        = (p_event.p_buffer.take i).sum + p_event.p_buffer[i] :=
      List.sum_take_succ p_event.p_buffer i hlt
    have hg : p_event.p_buffer.getD i 0 = p_event.p_buffer[i] :=
      List.getD_eq_getElem p_event.p_buffer 0 hlt
    rw [hg, a1, b1, hsum]
    have hx := hrange p_event.p_buffer[i] (List.getElem_mem hlt)
    exact ⟨by omega, rfl⟩
  · rw [hmean]
    have := Rat.floor_intCast_div_natCast p_event.p_buffer.sum 30
    simpa using this.symm
  · have : (batch_mean p_event.p_buffer : Int) ≤ 255 := by
      rw [hmean]; omega
    exact_mod_cast this
  · have hnat : batch_mean p_event.p_buffer = (p_event.p_buffer.sum / 30).toNat := by
      rw [← hmean]; simp
    simp [saadc_event_handler, htype, hnat]

/-- Instance of C5: thirty samples equal to 60. -/
theorem batch_mean_exact_witness :
    (batch_mean (List.replicate 30 60) : Int) = (List.replicate 30 (60 : Int)).sum / 30 ∧
    batch_mean (List.replicate 30 60) ≤ 255 :=
  have h := batch_mean_exact boot ⟨NRF_DRV_SAADC_EVT_DONE, List.replicate 30 60⟩ 0 0 rfl
    (by decide) (by decide)
  ⟨h.2.2.2.1, h.2.2.2.2.2.1⟩

/-! ## What `ble_evt_dispatch` does, event by event -/

theorem Outcome.bind_app (o : Outcome) (k : App → Outcome) :
    (o.bind k).app = if o.fault then o.app else (k o.app).app := by
  unfold Outcome.bind; split <;> rfl

theorem Outcome.bind_fault (o : Outcome) (k : App → Outcome) :
    (o.bind k).fault = (o.fault || (k o.app).fault) := by
  unfold Outcome.bind; cases h : o.fault <;> simp [h]

theorem Outcome.bind_calls (o : Outcome) (k : App → Outcome) :
    (o.bind k).calls = if o.fault then o.calls else o.calls ++ (k o.app).calls := by
  unfold Outcome.bind; split <;> rfl

theorem evt_ids :
    BLE_GAP_EVT_CONNECTED = 16 ∧ BLE_GAP_EVT_DISCONNECTED = 17 ∧ BLE_GATTS_EVT_WRITE = 80 :=
  ⟨rfl, rfl, rfl⟩

theorem dispatch_connected (st : App) (e : BleEvt) (send_err : Nat)
    (h : e.evt_id = BLE_GAP_EVT_CONNECTED) :
    ble_evt_dispatch st e send_err =
      ⟨{ st with m_conn_handle := e.conn_handle, gpio_out := 1 <<< 6 },
        [Call.ble_conn_state_on_ble_evt e, Call.ble_conn_params_on_ble_evt e, Call.on_ble_evt e,
          Call.ble_sdc_on_ble_evt e, Call.on_connect e, Call.ble_advertising_on_ble_evt e,
          Call.pm_ble_evt_handler e], false⟩ := by
  simp [ble_evt_dispatch, on_ble_evt, ble_sdc_on_ble_evt, Outcome.bind, Outcome.call,
    Outcome.ret, h, evt_ids]

theorem dispatch_disconnected (st : App) (e : BleEvt) (send_err : Nat)
    (h : e.evt_id = BLE_GAP_EVT_DISCONNECTED) :
    ble_evt_dispatch st e send_err =
      ⟨{ st with m_conn_handle := BLE_CONN_HANDLE_INVALID, gpio_out := 0 <<< 6,
                 ppi_enabled := false },
        [Call.ble_conn_state_on_ble_evt e, Call.ble_conn_params_on_ble_evt e, Call.on_ble_evt e,
          Call.ble_sdc_on_ble_evt e, Call.on_disconnect e, Call.nrf_drv_ppi_channel_disable,
          Call.ble_advertising_on_ble_evt e, Call.pm_ble_evt_handler e], false⟩ := by
  simp [ble_evt_dispatch, on_ble_evt, ble_sdc_on_ble_evt, saadc_sampling_event_disable,
    nrf_drv_ppi_channel_disable, APP_ERROR_CHECK, Outcome.bind, Outcome.call, Outcome.ret, h, evt_ids]

theorem dispatch_write_ok (st : App) (e : BleEvt) (send_err : Nat)
    (h : e.evt_id = BLE_GATTS_EVT_WRITE) (hbat : st.m_buffer_bat < 255)
    (hs : send_err = NRF_SUCCESS) :
    ble_evt_dispatch st e send_err =
      ⟨{ st with ppi_enabled := true },
        [Call.ble_conn_state_on_ble_evt e, Call.ble_conn_params_on_ble_evt e, Call.on_ble_evt e,
          Call.ble_sdc_on_ble_evt e, Call.on_write e, Call.ble_sdc_data_send [69] 1,
          Call.nrf_drv_ppi_channel_enable,
          Call.ble_advertising_on_ble_evt e, Call.pm_ble_evt_handler e], false⟩ := by
  simp [ble_evt_dispatch, on_ble_evt, ble_sdc_on_ble_evt, saadc_sampling_event_enable,
    send_battery_low_warning, send_checked,
    nrf_drv_ppi_channel_enable, APP_ERROR_CHECK, Outcome.bind, Outcome.call, Outcome.ret, hbat, hs, h, evt_ids]

theorem dispatch_write_fail (st : App) (e : BleEvt) (send_err : Nat)
    (h : e.evt_id = BLE_GATTS_EVT_WRITE) (hbat : st.m_buffer_bat < 255)
    (hs : send_err ≠ NRF_SUCCESS) :
    ble_evt_dispatch st e send_err =
      ⟨st,
        [Call.ble_conn_state_on_ble_evt e, Call.ble_conn_params_on_ble_evt e, Call.on_ble_evt e,
          Call.ble_sdc_on_ble_evt e, Call.on_write e, Call.ble_sdc_data_send [69] 1,
          Call.app_error_handler send_err], true⟩ := by
  simp [ble_evt_dispatch, on_ble_evt, ble_sdc_on_ble_evt, saadc_sampling_event_enable,
    send_battery_low_warning, send_checked,
    nrf_drv_ppi_channel_enable, APP_ERROR_CHECK, Outcome.bind, Outcome.call, Outcome.ret, hbat, hs, h, evt_ids]

theorem dispatch_write_nobat (st : App) (e : BleEvt) (send_err : Nat)
    (h : e.evt_id = BLE_GATTS_EVT_WRITE) (hbat : ¬ st.m_buffer_bat < 255) :
    ble_evt_dispatch st e send_err =
      ⟨{ st with ppi_enabled := true },
        [Call.ble_conn_state_on_ble_evt e, Call.ble_conn_params_on_ble_evt e, Call.on_ble_evt e,
          Call.ble_sdc_on_ble_evt e, Call.on_write e,
          Call.nrf_drv_ppi_channel_enable,
          Call.ble_advertising_on_ble_evt e, Call.pm_ble_evt_handler e], false⟩ := by
  simp [ble_evt_dispatch, on_ble_evt, ble_sdc_on_ble_evt, saadc_sampling_event_enable,
    send_battery_low_warning, send_checked,
    nrf_drv_ppi_channel_enable, APP_ERROR_CHECK, Outcome.bind, Outcome.call, Outcome.ret, hbat, h, evt_ids]

theorem dispatch_other (st : App) (e : BleEvt) (send_err : Nat)
    (h1 : e.evt_id ≠ BLE_GAP_EVT_CONNECTED) (h2 : e.evt_id ≠ BLE_GAP_EVT_DISCONNECTED)
    (h3 : e.evt_id ≠ BLE_GATTS_EVT_WRITE) :
    ble_evt_dispatch st e send_err =
      ⟨st,
        [Call.ble_conn_state_on_ble_evt e, Call.ble_conn_params_on_ble_evt e, Call.on_ble_evt e,
          Call.ble_sdc_on_ble_evt e,
          Call.ble_advertising_on_ble_evt e, Call.pm_ble_evt_handler e], false⟩ := by
  simp [ble_evt_dispatch, on_ble_evt, ble_sdc_on_ble_evt, Outcome.bind, Outcome.call,
    Outcome.ret, h1, h2, h3]

/-- Case analysis on what `ble_evt_dispatch` does, by event id, battery buffer
and send result. -/
theorem dispatch_cases (P : Outcome → Prop) (st : App) (e : BleEvt) (send_err : Nat)
    (hconn : e.evt_id = BLE_GAP_EVT_CONNECTED →
      P ⟨{ st with m_conn_handle := e.conn_handle, gpio_out := 1 <<< 6 },
        [Call.ble_conn_state_on_ble_evt e, Call.ble_conn_params_on_ble_evt e, Call.on_ble_evt e,
          Call.ble_sdc_on_ble_evt e, Call.on_connect e, Call.ble_advertising_on_ble_evt e,
          Call.pm_ble_evt_handler e], false⟩)
    (hdisc : e.evt_id = BLE_GAP_EVT_DISCONNECTED →
      P ⟨{ st with m_conn_handle := BLE_CONN_HANDLE_INVALID, gpio_out := 0 <<< 6,
                   ppi_enabled := false },
        [Call.ble_conn_state_on_ble_evt e, Call.ble_conn_params_on_ble_evt e, Call.on_ble_evt e,
          Call.ble_sdc_on_ble_evt e, Call.on_disconnect e, Call.nrf_drv_ppi_channel_disable,
          Call.ble_advertising_on_ble_evt e, Call.pm_ble_evt_handler e], false⟩)
    (hwok : e.evt_id = BLE_GATTS_EVT_WRITE → st.m_buffer_bat < 255 → send_err = NRF_SUCCESS →
      P ⟨{ st with ppi_enabled := true },
        [Call.ble_conn_state_on_ble_evt e, Call.ble_conn_params_on_ble_evt e, Call.on_ble_evt e,
          Call.ble_sdc_on_ble_evt e, Call.on_write e, Call.ble_sdc_data_send [69] 1,
          Call.nrf_drv_ppi_channel_enable,
          Call.ble_advertising_on_ble_evt e, Call.pm_ble_evt_handler e], false⟩)
    (hwfail : e.evt_id = BLE_GATTS_EVT_WRITE → st.m_buffer_bat < 255 → send_err ≠ NRF_SUCCESS →
      P ⟨st,
        [Call.ble_conn_state_on_ble_evt e, Call.ble_conn_params_on_ble_evt e, Call.on_ble_evt e,
          Call.ble_sdc_on_ble_evt e, Call.on_write e, Call.ble_sdc_data_send [69] 1,
          Call.app_error_handler send_err], true⟩)
    (hwnobat : e.evt_id = BLE_GATTS_EVT_WRITE → ¬ st.m_buffer_bat < 255 →
      P ⟨{ st with ppi_enabled := true },
        [Call.ble_conn_state_on_ble_evt e, Call.ble_conn_params_on_ble_evt e, Call.on_ble_evt e,
          Call.ble_sdc_on_ble_evt e, Call.on_write e,
          Call.nrf_drv_ppi_channel_enable,
          Call.ble_advertising_on_ble_evt e, Call.pm_ble_evt_handler e], false⟩)
    (hother : e.evt_id ≠ BLE_GAP_EVT_CONNECTED → e.evt_id ≠ BLE_GAP_EVT_DISCONNECTED →
      e.evt_id ≠ BLE_GATTS_EVT_WRITE →
      P ⟨st,
        [Call.ble_conn_state_on_ble_evt e, Call.ble_conn_params_on_ble_evt e, Call.on_ble_evt e,
          Call.ble_sdc_on_ble_evt e,
          Call.ble_advertising_on_ble_evt e, Call.pm_ble_evt_handler e], false⟩) :
    P (ble_evt_dispatch st e send_err) := by
  by_cases h1 : e.evt_id = BLE_GAP_EVT_CONNECTED
  · rw [dispatch_connected st e send_err h1]; exact hconn h1
  by_cases h2 : e.evt_id = BLE_GAP_EVT_DISCONNECTED
  · rw [dispatch_disconnected st e send_err h2]; exact hdisc h2
  by_cases h3 : e.evt_id = BLE_GATTS_EVT_WRITE
  · by_cases hbat : st.m_buffer_bat < 255
    · by_cases hs : send_err = NRF_SUCCESS
      · rw [dispatch_write_ok st e send_err h3 hbat hs]; exact hwok h3 hbat hs
      · rw [dispatch_write_fail st e send_err h3 hbat hs]; exact hwfail h3 hbat hs
    · rw [dispatch_write_nobat st e send_err h3 hbat]; exact hwnobat h3 hbat
  · rw [dispatch_other st e send_err h1 h2 h3]; exact hother h1 h2 h3

/-! ## Link and channel state along event sequences -/

theorem saadc_filter_frame (st : App) (value send_err : Nat) :
    (saadc_filter st value send_err).app.m_conn_handle = st.m_conn_handle ∧
    (saadc_filter st value send_err).app.ppi_enabled = st.ppi_enabled ∧
    (saadc_filter st value send_err).app.m_buffer_bat = st.m_buffer_bat := by
  unfold saadc_filter
  split
  · split
    · simp [send_checked_app]
    · split
      · simp [send_checked_app]
      · split
        · simp [send_checked_app]
        · simp [Outcome.ret]
  · simp [Outcome.ret]

theorem saadc_event_handler_frame (st : App) (p_event : SaadcEvt) (convert_err send_err : Nat) :
    (saadc_event_handler st p_event convert_err send_err).app.m_conn_handle = st.m_conn_handle ∧
    (saadc_event_handler st p_event convert_err send_err).app.ppi_enabled = st.ppi_enabled := by
  have hf := saadc_filter_frame st (batch_mean p_event.p_buffer) send_err
  unfold saadc_event_handler
  by_cases ht : p_event.type = NRF_DRV_SAADC_EVT_DONE
  · by_cases hc : convert_err = NRF_SUCCESS
    · simp [ht, hc, APP_ERROR_CHECK, Outcome.bind, Outcome.call, Outcome.ret, hf.1, hf.2.1]
    · simp [ht, hc, APP_ERROR_CHECK, Outcome.bind, Outcome.call, Outcome.ret]
  · simp [ht, Outcome.ret]

theorem evt_ids_distinct :
    ¬ BLE_GAP_EVT_CONNECTED = BLE_GAP_EVT_DISCONNECTED ∧
    ¬ BLE_GAP_EVT_DISCONNECTED = BLE_GAP_EVT_CONNECTED ∧
    ¬ BLE_GAP_EVT_CONNECTED = BLE_GATTS_EVT_WRITE ∧
    ¬ BLE_GATTS_EVT_WRITE = BLE_GAP_EVT_CONNECTED ∧
    ¬ BLE_GAP_EVT_DISCONNECTED = BLE_GATTS_EVT_WRITE ∧
    ¬ BLE_GATTS_EVT_WRITE = BLE_GAP_EVT_DISCONNECTED := by
  decide

theorem run_cons_no_fault (st : App) (i : Input) (rest : List Input)
    (h : (run st (i :: rest)).fault = false) :
    (step st i).fault = false ∧ (run (step st i).app rest).fault = false ∧
    (run st (i :: rest)).app = (run (step st i).app rest).app := by
  have hb : ((step st i).bind (fun st1 => run st1 rest)).fault = false := h
  rw [Outcome.bind_fault, Bool.or_eq_false_iff] at hb
  refine ⟨hb.1, hb.2, ?_⟩
  show ((step st i).bind (fun st1 => run st1 rest)).app = _
  rw [Outcome.bind_app, hb.1]
  rfl

theorem dispatch_ppi (st : App) (e : BleEvt) (send_err : Nat)
    (hnf : (ble_evt_dispatch st e send_err).fault = false) :
    (ble_evt_dispatch st e send_err).app.ppi_enabled
      = (if e.evt_id = BLE_GAP_EVT_DISCONNECTED then false
         else if e.evt_id = BLE_GATTS_EVT_WRITE then true
         else st.ppi_enabled) := by
  revert hnf
  apply dispatch_cases (fun o => o.fault = false → o.app.ppi_enabled
      = (if e.evt_id = BLE_GAP_EVT_DISCONNECTED then false
         else if e.evt_id = BLE_GATTS_EVT_WRITE then true
         else st.ppi_enabled)) st e send_err
  · intro h _; simp [h, evt_ids]
  · intro h _; simp [h]
  · intro h _ _ _; simp [h, evt_ids]
  · intro _ _ _ hf; exact absurd hf (by simp)
  · intro h _ _; simp [h, evt_ids]
  · intro h1 h2 h3 _; simp [h2, h3]

theorem dispatch_handle (st : App) (e : BleEvt) (send_err : Nat) :
    (ble_evt_dispatch st e send_err).app.m_conn_handle
      = (if e.evt_id = BLE_GAP_EVT_CONNECTED then e.conn_handle
         else if e.evt_id = BLE_GAP_EVT_DISCONNECTED then BLE_CONN_HANDLE_INVALID
         else st.m_conn_handle) := by
  apply dispatch_cases (fun o => o.app.m_conn_handle
      = (if e.evt_id = BLE_GAP_EVT_CONNECTED then e.conn_handle
         else if e.evt_id = BLE_GAP_EVT_DISCONNECTED then BLE_CONN_HANDLE_INVALID
         else st.m_conn_handle)) st e send_err
  · intro h; simp [h]
  · intro h; simp [h, evt_ids]
  · intro h _ _; simp [h, evt_ids]
  · intro h _ _; simp [h, evt_ids]
  · intro h _; simp [h, evt_ids]
  · intro h1 h2 _; simp [h1, h2]

/-- The trigger channel follows the control writes: without a fatal error it is
enabled exactly when a write was handled since the last disconnect. -/
theorem run_ppi_tracks (tr : List Input) : ∀ st : App, (run st tr).fault = false →
    (run st tr).app.ppi_enabled = write_seen st.ppi_enabled tr := by
  induction tr with
  | nil => intro st _; rfl
  | cons i rest ih =>
    intro st hnf
    obtain ⟨hs, hr, happ⟩ := run_cons_no_fault st i rest hnf
    rw [happ, ih (step st i).app hr]
    cases i with
    | ble e send_err =>
      have hp : (step st (Input.ble e send_err)).app.ppi_enabled = _ :=
        dispatch_ppi st e send_err hs
      rw [hp]
      simp only [write_seen]
      by_cases hd : e.evt_id = BLE_GAP_EVT_DISCONNECTED
      · simp [hd]
      · by_cases hw : e.evt_id = BLE_GATTS_EVT_WRITE
        · simp [hw, evt_ids_distinct]
        · simp [hd, hw]
    | saadc p_event convert_err send_err =>
      have hp : (step st (Input.saadc p_event convert_err send_err)).app.ppi_enabled
          = st.ppi_enabled := (saadc_event_handler_frame st p_event convert_err send_err).2
      rw [hp]
      rfl

/-- The recorded handle follows the link: on event sequences the stack can
deliver and without a fatal error, `m_conn_handle` is valid exactly when the
stack holds a link. -/
theorem run_handle_tracks (tr : List Input) : ∀ (st : App) (up : Bool),
    stack_ok up tr = true → (run st tr).fault = false →
    (st.m_conn_handle ≠ BLE_CONN_HANDLE_INVALID ↔ up = true) →
    ((run st tr).app.m_conn_handle ≠ BLE_CONN_HANDLE_INVALID ↔ link_up up tr = true) := by
  induction tr with
  | nil => intro st up _ _ h; exact h
  | cons i rest ih =>
    intro st up hok hnf h
    obtain ⟨_, hr, happ⟩ := run_cons_no_fault st i rest hnf
    rw [happ]
    cases i with
    | ble e send_err =>
      have hh : (step st (Input.ble e send_err)).app.m_conn_handle = _ :=
        dispatch_handle st e send_err
      simp only [stack_ok] at hok
      simp only [link_up]
      by_cases hc : e.evt_id = BLE_GAP_EVT_CONNECTED
      · simp only [hc, if_true, Bool.and_eq_true, decide_eq_true_eq] at hok hh ⊢
        exact ih _ true hok.2 hr (by rw [hh]; simp [hok.1])
      · by_cases hd : e.evt_id = BLE_GAP_EVT_DISCONNECTED
        · simp only [hd, evt_ids_distinct, if_true, if_false] at hok hh ⊢
          exact ih _ false hok hr (by rw [hh]; simp)
        · by_cases hw : e.evt_id = BLE_GATTS_EVT_WRITE
          · simp only [hw, evt_ids_distinct, if_true, if_false, Bool.and_eq_true] at hok hh ⊢
            exact ih _ up hok.2 hr (by rw [hh]; exact h)
          · simp only [hc, hd, hw, if_false] at hok hh ⊢
            exact ih _ up hok hr (by rw [hh]; exact h)
    | saadc p_event convert_err send_err =>
      have hh : (step st (Input.saadc p_event convert_err send_err)).app.m_conn_handle
          = st.m_conn_handle := (saadc_event_handler_frame st p_event convert_err send_err).1
      exact ih _ up hok hr (by rw [hh]; exact h)

/-- On event sequences the stack can deliver, a write since the last disconnect
implies that the stack holds a link. -/
theorem write_seen_link_up (tr : List Input) : ∀ (up w : Bool),
    stack_ok up tr = true → (w = true → up = true) →
    write_seen w tr = true → link_up up tr = true := by
  induction tr with
  | nil => intro up w _ h hw; exact h hw
  | cons i rest ih =>
    intro up w hok h hws
    cases i with
    | ble e send_err =>
      simp only [stack_ok] at hok
      simp only [write_seen] at hws
      simp only [link_up]
      by_cases hc : e.evt_id = BLE_GAP_EVT_CONNECTED
      · simp only [hc, evt_ids_distinct, if_true, if_false, Bool.and_eq_true] at hok hws ⊢
        exact ih true w hok.2 (fun _ => rfl) hws
      · by_cases hd : e.evt_id = BLE_GAP_EVT_DISCONNECTED
        · simp only [hd, evt_ids_distinct, if_true, if_false] at hok hws ⊢
          exact ih false false hok (fun hf => absurd hf (by decide)) hws
        · by_cases hw : e.evt_id = BLE_GATTS_EVT_WRITE
          · simp only [hw, evt_ids_distinct, if_true, if_false, Bool.and_eq_true] at hok hws ⊢
            exact ih up true hok.2 (fun _ => hok.1) hws
          · simp only [hc, hd, hw, if_false] at hok hws ⊢
            exact ih up w hok h hws
    | saadc p_event convert_err send_err =>
      exact ih up w hok h hws

/-! ## Sampling and link state (C6) -/

/-- C6, counterexample: after the connect event from boot the link is recorded
(handle 0, which is not `BLE_CONN_HANDLE_INVALID`) while the trigger channel
is still disabled, so "enabled if and only if connected" fails. -/
theorem connected_but_not_sampling :
    (run boot [Input.ble ⟨BLE_GAP_EVT_CONNECTED, 0⟩ NRF_SUCCESS]).fault = false ∧
    (run boot [Input.ble ⟨BLE_GAP_EVT_CONNECTED, 0⟩ NRF_SUCCESS]).app.m_conn_handle = 0 ∧
    (run boot [Input.ble ⟨BLE_GAP_EVT_CONNECTED, 0⟩ NRF_SUCCESS]).app.ppi_enabled = false ∧
    ¬ ((run boot [Input.ble ⟨BLE_GAP_EVT_CONNECTED, 0⟩ NRF_SUCCESS]).app.ppi_enabled = true ↔
        (run boot [Input.ble ⟨BLE_GAP_EVT_CONNECTED, 0⟩ NRF_SUCCESS]).app.m_conn_handle
          ≠ BLE_CONN_HANDLE_INVALID) := by
  decide

/-- C6, amended: along every event sequence from boot that the stack can
deliver (connect events carry a valid handle, write events arrive only while
the stack holds a link) and that has met no fatal error, the trigger channel
is enabled if and only if the link is connected (`m_conn_handle` valid) and a
control write has been handled since the last disconnect; the handle is valid
exactly while the stack holds a link; and handling a disconnect event in any
state ends, without fatal error, with the channel disabled and the handle
invalid. -/
theorem sampling_iff_connected_and_written (tr : List Input)
    (hok : stack_ok false tr = true) (hnf : (run boot tr).fault = false) :
    ((run boot tr).app.ppi_enabled = true ↔
      ((run boot tr).app.m_conn_handle ≠ BLE_CONN_HANDLE_INVALID ∧
        write_seen false tr = true)) ∧
    ((run boot tr).app.m_conn_handle ≠ BLE_CONN_HANDLE_INVALID ↔ link_up false tr = true) ∧
    (∀ (st : App) (e : BleEvt) (send_err : Nat), e.evt_id = BLE_GAP_EVT_DISCONNECTED →
      (ble_evt_dispatch st e send_err).fault = false ∧
      (ble_evt_dispatch st e send_err).app.ppi_enabled = false ∧
      (ble_evt_dispatch st e send_err).app.m_conn_handle = BLE_CONN_HANDLE_INVALID) := by
  have hppi : (run boot tr).app.ppi_enabled = write_seen false tr := run_ppi_tracks tr boot hnf
  have hlink := run_handle_tracks tr boot false hok hnf (by decide)
  have himp := write_seen_link_up tr false false hok (fun h => h)
  refine ⟨?_, hlink, ?_⟩
  · rw [hppi]
    constructor
    · intro hw
      exact ⟨hlink.mpr (himp hw), hw⟩
    · intro h
      exact h.2
  · intro st e send_err h
    rw [dispatch_disconnected st e send_err h]
    exact ⟨rfl, rfl, rfl⟩

/-- Instance of C6 (amended): after connect and one write from boot the
channel is enabled, the link connected and a write seen; and a disconnect
event handled in that state disables the channel. -/
theorem sampling_iff_connected_and_written_witness :
    ((run boot [Input.ble ⟨BLE_GAP_EVT_CONNECTED, 0⟩ 0,
        Input.ble ⟨BLE_GATTS_EVT_WRITE, 0⟩ 0]).app.ppi_enabled = true ↔
      ((run boot [Input.ble ⟨BLE_GAP_EVT_CONNECTED, 0⟩ 0,
          Input.ble ⟨BLE_GATTS_EVT_WRITE, 0⟩ 0]).app.m_conn_handle ≠ BLE_CONN_HANDLE_INVALID ∧
        write_seen false [Input.ble ⟨BLE_GAP_EVT_CONNECTED, 0⟩ 0,
          Input.ble ⟨BLE_GATTS_EVT_WRITE, 0⟩ 0] = true)) ∧
    (run boot [Input.ble ⟨BLE_GAP_EVT_CONNECTED, 0⟩ 0,
        Input.ble ⟨BLE_GATTS_EVT_WRITE, 0⟩ 0]).app.ppi_enabled = true ∧
    (ble_evt_dispatch (run boot [Input.ble ⟨BLE_GAP_EVT_CONNECTED, 0⟩ 0,
        Input.ble ⟨BLE_GATTS_EVT_WRITE, 0⟩ 0]).app
      ⟨BLE_GAP_EVT_DISCONNECTED, 0⟩ 0).app.ppi_enabled = false :=
  have h := sampling_iff_connected_and_written
    [Input.ble ⟨BLE_GAP_EVT_CONNECTED, 0⟩ 0, Input.ble ⟨BLE_GATTS_EVT_WRITE, 0⟩ 0]
    (by decide) (by decide)
  ⟨h.1, by decide, (h.2.2 _ ⟨BLE_GAP_EVT_DISCONNECTED, 0⟩ 0 rfl).2.1⟩

/-! ## Enable actions per connection (C7) -/

theorem enable_count_append (xs ys : List Call) :
    enable_count (xs ++ ys) = enable_count xs + enable_count ys := by
  simp [enable_count, List.count_append]

theorem write_step_enables_once (st : App) (w : BleEvt) (h : w.evt_id = BLE_GATTS_EVT_WRITE) :
    (ble_evt_dispatch st w NRF_SUCCESS).fault = false ∧
    enable_count (ble_evt_dispatch st w NRF_SUCCESS).calls = 1 := by
  apply dispatch_cases
    (fun o => o.fault = false ∧ enable_count o.calls = 1) st w NRF_SUCCESS
  · intro h1; rw [h] at h1; exact absurd h1 (by decide)
  · intro h1; rw [h] at h1; exact absurd h1 (by decide)
  · intro _ _ _; exact ⟨rfl, by simp [enable_count]⟩
  · intro _ _ hs; exact absurd rfl hs
  · intro _ _; exact ⟨rfl, by simp [enable_count]⟩
  · intro _ _ h3; exact absurd h h3

theorem writes_then_disconnect_count (d : BleEvt) (hd : d.evt_id = BLE_GAP_EVT_DISCONNECTED)
    (ws : List BleEvt) : ∀ st : App, (∀ w ∈ ws, w.evt_id = BLE_GATTS_EVT_WRITE) →
    enable_count (run st (ws.map (fun w => Input.ble w NRF_SUCCESS)
      ++ [Input.ble d NRF_SUCCESS])).calls = ws.length := by
  induction ws with
  | nil =>
    intro st _
    simp [run, step, dispatch_disconnected st d NRF_SUCCESS hd, Outcome.bind, Outcome.ret,
      enable_count]
  | cons w rest ih =>
    intro st hw
    have hw1 := write_step_enables_once st w (hw w (List.mem_cons_self w rest))
    have hrest := ih (ble_evt_dispatch st w NRF_SUCCESS).app
      (fun x hx => hw x (List.mem_cons_of_mem w hx))
    show enable_count ((ble_evt_dispatch st w NRF_SUCCESS).bind (fun st1 => run st1
      (rest.map (fun w => Input.ble w NRF_SUCCESS) ++ [Input.ble d NRF_SUCCESS]))).calls
        = (w :: rest).length
    rw [Outcome.bind_calls, hw1.1]
    simp only [Bool.false_eq_true, if_false]
    rw [enable_count_append, hw1.2, hrest, List.length_cons]
    omega

/-- C7, counterexample: one connection with two write events performs two
enable actions, and one connection with no write event performs none; in
neither trace is the total exactly one. -/
theorem enable_count_not_one :
    enable_count (run boot [Input.ble ⟨BLE_GAP_EVT_CONNECTED, 0⟩ NRF_SUCCESS,
      Input.ble ⟨BLE_GATTS_EVT_WRITE, 0⟩ NRF_SUCCESS,
      Input.ble ⟨BLE_GATTS_EVT_WRITE, 0⟩ NRF_SUCCESS,
      Input.ble ⟨BLE_GAP_EVT_DISCONNECTED, 0⟩ NRF_SUCCESS]).calls = 2 ∧
    enable_count (run boot [Input.ble ⟨BLE_GAP_EVT_CONNECTED, 0⟩ NRF_SUCCESS,
      Input.ble ⟨BLE_GAP_EVT_DISCONNECTED, 0⟩ NRF_SUCCESS]).calls = 0 := by
  decide

/-- C7, amended: over the trace connect, any number of write events,
disconnect, with every external call succeeding, the handlers perform one
`saadc_sampling_event_enable` action per write event; handling the connect
event performs none; and in any state an enable action occurs only while a
write event is being handled. -/
theorem enable_once_per_write (st : App) (c d : BleEvt) (ws : List BleEvt)
    (hc : c.evt_id = BLE_GAP_EVT_CONNECTED) (hd : d.evt_id = BLE_GAP_EVT_DISCONNECTED)
    (hw : ∀ w ∈ ws, w.evt_id = BLE_GATTS_EVT_WRITE) :
    enable_count (run st (Input.ble c NRF_SUCCESS ::
      (ws.map (fun w => Input.ble w NRF_SUCCESS) ++ [Input.ble d NRF_SUCCESS]))).calls
        = ws.length ∧
    enable_count (ble_evt_dispatch st c NRF_SUCCESS).calls = 0 ∧
    (∀ (st1 : App) (e : BleEvt) (send_err : Nat),
      Call.nrf_drv_ppi_channel_enable ∈ (ble_evt_dispatch st1 e send_err).calls →
      e.evt_id = BLE_GATTS_EVT_WRITE) := by
  have hconn := dispatch_connected st c NRF_SUCCESS hc
  refine ⟨?_, ?_, ?_⟩
  · have hrest := writes_then_disconnect_count d hd ws (ble_evt_dispatch st c NRF_SUCCESS).app hw
    have hf : (ble_evt_dispatch st c NRF_SUCCESS).fault = false := by rw [hconn]
    have h0 : enable_count (ble_evt_dispatch st c NRF_SUCCESS).calls = 0 := by
      simp [hconn, enable_count]
    show enable_count ((ble_evt_dispatch st c NRF_SUCCESS).bind (fun st1 => run st1
      (ws.map (fun w => Input.ble w NRF_SUCCESS) ++ [Input.ble d NRF_SUCCESS]))).calls
        = ws.length
    rw [Outcome.bind_calls, hf]
    simp only [Bool.false_eq_true, if_false]
    rw [enable_count_append, h0, hrest]
    omega
  · simp [hconn, enable_count]
  · intro st1 e send_err
    apply dispatch_cases
      (fun o => Call.nrf_drv_ppi_channel_enable ∈ o.calls → e.evt_id = BLE_GATTS_EVT_WRITE)
      st1 e send_err
    · intro _ hm; simp at hm
    · intro _ hm; simp at hm
    · intro h _ _ _; exact h
    · intro h _ _ _; exact h
    · intro h _ _; exact h
    · intro _ _ _ hm; simp at hm

/-- Instance of C7 (amended): one connection with three write events from boot
performs three enable actions. -/
theorem enable_once_per_write_witness :
    enable_count (run boot (Input.ble ⟨BLE_GAP_EVT_CONNECTED, 0⟩ NRF_SUCCESS ::
      (([⟨BLE_GATTS_EVT_WRITE, 0⟩, ⟨BLE_GATTS_EVT_WRITE, 0⟩, ⟨BLE_GATTS_EVT_WRITE, 0⟩]
          : List BleEvt).map (fun w => Input.ble w NRF_SUCCESS)
        ++ [Input.ble ⟨BLE_GAP_EVT_DISCONNECTED, 0⟩ NRF_SUCCESS]))).calls = 3 :=
  (enable_once_per_write boot ⟨BLE_GAP_EVT_CONNECTED, 0⟩ ⟨BLE_GAP_EVT_DISCONNECTED, 0⟩
    [⟨BLE_GATTS_EVT_WRITE, 0⟩, ⟨BLE_GATTS_EVT_WRITE, 0⟩, ⟨BLE_GATTS_EVT_WRITE, 0⟩]
    rfl rfl (by decide)).1

/-! ## Notification sends and link state (C8) -/

theorem batch_mean_of_samples (b : List Int) (hlen : b.length = SAMPLES_IN_BUFFER)
    (hrange : ∀ x ∈ b, 0 ≤ x ∧ x ≤ 255) :
    (batch_mean b : Int) = b.sum / 30 := by
  have h30 : SAMPLES_IN_BUFFER = 30 := rfl
  rw [h30] at hlen
  obtain ⟨hs, _, _⟩ := sum_loop_take b hrange 30 (by omega) (by omega)
  have htake : b.take 30 = b := by
    rw [← hlen]; exact List.take_length _
  rw [htake] at hs
  unfold batch_mean
  rw [h30]
  push_cast
  rw [hs]

theorem run_cons_ok (st : App) (i : Input) (rest : List Input) (a : App) (cs : List Call)
    (h : step st i = ⟨a, cs, false⟩) :
    run st (i :: rest) = ⟨(run a rest).app, cs ++ (run a rest).calls, (run a rest).fault⟩ := by
  simp [run, h, Outcome.bind]

/-- C9 (end-to-end scenario): `main` starts slow advertising and leaves the
handle invalid, `m_old_value = 0` and sampling disabled.  From there, with
every external call succeeding, for any connection handle `h` and any batch of
thirty samples in `[0, 255]` whose truncating mean is 60: after the connect
event the handle `h` is recorded and sampling is still disabled; after the
write event sampling is enabled; the batch gives reading 60, exactly one
notification, of length 1 with payload 60, and `m_old_value = 60`; after the
disconnect event no fatal error has occurred, the handle is invalid, sampling
is disabled and `m_old_value` is still 60. -/
theorem end_to_end_scenario (h : Nat) (buf : List Int)
    (hlen : buf.length = SAMPLES_IN_BUFFER) (hrange : ∀ x ∈ buf, 0 ≤ x ∧ x ≤ 255)
    (hmean : buf.sum / 30 = 60) :
    ((main NRF_SUCCESS).fault = false ∧
      (main NRF_SUCCESS).calls = [Call.ble_advertising_start BLE_ADV_MODE_SLOW] ∧
      (main NRF_SUCCESS).app.m_conn_handle = BLE_CONN_HANDLE_INVALID ∧
      (main NRF_SUCCESS).app.m_old_value = 0 ∧
      (main NRF_SUCCESS).app.ppi_enabled = false) ∧
    ((run (main NRF_SUCCESS).app
        [Input.ble ⟨BLE_GAP_EVT_CONNECTED, h⟩ NRF_SUCCESS]).app.m_conn_handle = h ∧
      (run (main NRF_SUCCESS).app
        [Input.ble ⟨BLE_GAP_EVT_CONNECTED, h⟩ NRF_SUCCESS]).app.ppi_enabled = false) ∧
    (run (main NRF_SUCCESS).app
        [Input.ble ⟨BLE_GAP_EVT_CONNECTED, h⟩ NRF_SUCCESS,
          Input.ble ⟨BLE_GATTS_EVT_WRITE, h⟩ NRF_SUCCESS]).app.ppi_enabled = true ∧
    (batch_mean buf = 60 ∧
      notifications (step (run (main NRF_SUCCESS).app
        [Input.ble ⟨BLE_GAP_EVT_CONNECTED, h⟩ NRF_SUCCESS,
          Input.ble ⟨BLE_GATTS_EVT_WRITE, h⟩ NRF_SUCCESS]).app
        (Input.saadc ⟨NRF_DRV_SAADC_EVT_DONE, buf⟩ NRF_SUCCESS NRF_SUCCESS)).calls
          = [([60], 1)] ∧
      (run (main NRF_SUCCESS).app
        [Input.ble ⟨BLE_GAP_EVT_CONNECTED, h⟩ NRF_SUCCESS,
          Input.ble ⟨BLE_GATTS_EVT_WRITE, h⟩ NRF_SUCCESS,
          Input.saadc ⟨NRF_DRV_SAADC_EVT_DONE, buf⟩ NRF_SUCCESS NRF_SUCCESS]).app.m_old_value
          = 60) ∧
    ((run (main NRF_SUCCESS).app
        [Input.ble ⟨BLE_GAP_EVT_CONNECTED, h⟩ NRF_SUCCESS,
          Input.ble ⟨BLE_GATTS_EVT_WRITE, h⟩ NRF_SUCCESS,
          Input.saadc ⟨NRF_DRV_SAADC_EVT_DONE, buf⟩ NRF_SUCCESS NRF_SUCCESS,
          Input.ble ⟨BLE_GAP_EVT_DISCONNECTED, h⟩ NRF_SUCCESS]).fault = false ∧
      (run (main NRF_SUCCESS).app
        [Input.ble ⟨BLE_GAP_EVT_CONNECTED, h⟩ NRF_SUCCESS,
          Input.ble ⟨BLE_GATTS_EVT_WRITE, h⟩ NRF_SUCCESS,
          Input.saadc ⟨NRF_DRV_SAADC_EVT_DONE, buf⟩ NRF_SUCCESS NRF_SUCCESS,
          Input.ble ⟨BLE_GAP_EVT_DISCONNECTED, h⟩ NRF_SUCCESS]).app
        = { boot with m_old_value := 60 }) := by
  have hmain : (main NRF_SUCCESS).app = boot := rfl
  have hbm : batch_mean buf = 60 := by
    have hb := batch_mean_of_samples buf hlen hrange
    rw [hmean] at hb
    exact_mod_cast hb
  have e1 : step boot (Input.ble ⟨BLE_GAP_EVT_CONNECTED, h⟩ NRF_SUCCESS)
      = ⟨⟨h, 0, 0, false, 64, 64⟩, _, false⟩ :=
    dispatch_connected boot ⟨BLE_GAP_EVT_CONNECTED, h⟩ NRF_SUCCESS rfl
  have e2 : step ⟨h, 0, 0, false, 64, 64⟩ (Input.ble ⟨BLE_GATTS_EVT_WRITE, h⟩ NRF_SUCCESS)
      = ⟨⟨h, 0, 0, true, 64, 64⟩, _, false⟩ :=
    dispatch_write_ok ⟨h, 0, 0, false, 64, 64⟩ ⟨BLE_GATTS_EVT_WRITE, h⟩ NRF_SUCCESS rfl
      (by simp) rfl
  have e3 : step ⟨h, 0, 0, true, 64, 64⟩
      (Input.saadc ⟨NRF_DRV_SAADC_EVT_DONE, buf⟩ NRF_SUCCESS NRF_SUCCESS)
      = ⟨⟨h, 60, 0, true, 64, 64⟩,
          [Call.nrf_drv_saadc_buffer_convert SAMPLES_IN_BUFFER, Call.ble_sdc_data_send [60] 1],
          false⟩ := by
    simp [step, saadc_event_handler, hbm, saadc_filter, send_checked, APP_ERROR_CHECK, Outcome.bind,
      Outcome.call, Outcome.ret, to_uint8]
  have e4 : step ⟨h, 60, 0, true, 64, 64⟩ (Input.ble ⟨BLE_GAP_EVT_DISCONNECTED, h⟩ NRF_SUCCESS)
      = ⟨⟨BLE_CONN_HANDLE_INVALID, 60, 0, false, 64, 0⟩, _, false⟩ :=
    dispatch_disconnected ⟨h, 60, 0, true, 64, 64⟩ ⟨BLE_GAP_EVT_DISCONNECTED, h⟩ NRF_SUCCESS rfl
  rw [hmain, run_cons_ok boot _ [] _ _ e1,
    run_cons_ok boot _ [Input.ble ⟨BLE_GATTS_EVT_WRITE, h⟩ NRF_SUCCESS] _ _ e1,
    run_cons_ok boot _ [Input.ble ⟨BLE_GATTS_EVT_WRITE, h⟩ NRF_SUCCESS,
      Input.saadc ⟨NRF_DRV_SAADC_EVT_DONE, buf⟩ NRF_SUCCESS NRF_SUCCESS] _ _ e1,
    run_cons_ok boot _ [Input.ble ⟨BLE_GATTS_EVT_WRITE, h⟩ NRF_SUCCESS,
      Input.saadc ⟨NRF_DRV_SAADC_EVT_DONE, buf⟩ NRF_SUCCESS NRF_SUCCESS,
      Input.ble ⟨BLE_GAP_EVT_DISCONNECTED, h⟩ NRF_SUCCESS] _ _ e1,
    run_cons_ok _ _ [] _ _ e2,
    run_cons_ok _ _ [Input.saadc ⟨NRF_DRV_SAADC_EVT_DONE, buf⟩ NRF_SUCCESS NRF_SUCCESS] _ _ e2,
    run_cons_ok _ _ [Input.saadc ⟨NRF_DRV_SAADC_EVT_DONE, buf⟩ NRF_SUCCESS NRF_SUCCESS,
      Input.ble ⟨BLE_GAP_EVT_DISCONNECTED, h⟩ NRF_SUCCESS] _ _ e2,
    run_cons_ok _ _ [] _ _ e3,
    run_cons_ok _ _ [Input.ble ⟨BLE_GAP_EVT_DISCONNECTED, h⟩ NRF_SUCCESS] _ _ e3,
    run_cons_ok _ _ [] _ _ e4]
  have hsend : notifications (step ⟨h, 0, 0, true, 64, 64⟩
      (Input.saadc ⟨NRF_DRV_SAADC_EVT_DONE, buf⟩ NRF_SUCCESS NRF_SUCCESS)).calls
      = [([60], 1)] := by
    rw [e3]; rfl
  exact ⟨by decide, ⟨rfl, rfl⟩, rfl, ⟨hbm, hsend, rfl⟩, rfl, rfl⟩

/-- Instance of C9: handle 0 and thirty samples equal to 60. -/
theorem end_to_end_scenario_witness :
    (run (main NRF_SUCCESS).app
        [Input.ble ⟨BLE_GAP_EVT_CONNECTED, 0⟩ NRF_SUCCESS,
          Input.ble ⟨BLE_GATTS_EVT_WRITE, 0⟩ NRF_SUCCESS,
          Input.saadc ⟨NRF_DRV_SAADC_EVT_DONE, List.replicate 30 60⟩ NRF_SUCCESS NRF_SUCCESS,
          Input.ble ⟨BLE_GAP_EVT_DISCONNECTED, 0⟩ NRF_SUCCESS]).app
        = { boot with m_old_value := 60 } :=
  (end_to_end_scenario 0 (List.replicate 30 60) (by decide) (by decide) (by decide)).2.2.2.2.2

/-! ## Dispatch order (C10) -/

theorem saadc_event_handler_bat (st : App) (p_event : SaadcEvt) (convert_err send_err : Nat) :
    (saadc_event_handler st p_event convert_err send_err).app.m_buffer_bat = st.m_buffer_bat := by
  have hf := saadc_filter_frame st (batch_mean p_event.p_buffer) send_err
  unfold saadc_event_handler
  by_cases ht : p_event.type = NRF_DRV_SAADC_EVT_DONE
  · by_cases hc : convert_err = NRF_SUCCESS
    · simp [ht, hc, APP_ERROR_CHECK, Outcome.bind, Outcome.call, Outcome.ret, hf.2.2]
    · simp [ht, hc, APP_ERROR_CHECK, Outcome.bind, Outcome.call, Outcome.ret]
  · simp [ht, Outcome.ret]

theorem step_keeps_buffer_bat (st : App) (i : Input) :
    (step st i).app.m_buffer_bat = st.m_buffer_bat := by
  cases i with
  | ble e send_err =>
    simp only [step]
    apply dispatch_cases (fun o => o.app.m_buffer_bat = st.m_buffer_bat) st e send_err
    · intro _; rfl
    · intro _; rfl
    · intro _ _ _; rfl
    · intro _ _ _; rfl
    · intro _ _; rfl
    · intro _ _ _; rfl
  | saadc p_event convert_err send_err =>
    exact saadc_event_handler_bat st p_event convert_err send_err

theorem run_keeps_buffer_bat (tr : List Input) : ∀ st : App,
    (run st tr).app.m_buffer_bat = st.m_buffer_bat := by
  induction tr with
  | nil => intro st; rfl
  | cons i rest ih =>
    intro st
    have hstep := step_keeps_buffer_bat st i
    have hrest := ih (step st i).app
    simp only [run, Outcome.bind_app]
    by_cases hf : (step st i).fault = true
    · simpa [hf] using hstep
    · simp only [hf, if_false]
      exact hrest.trans hstep

/-- C11, counterexample: in the state reached from boot by a connect event
(handle 0), `m_buffer_bat` is still 0 and handling a control write makes
`send_battery_low_warning` send the one-byte warning `E` (69); the write
event as a whole contains that `ble_sdc_data_send` call. -/
theorem battery_warning_sent_on_write :
    (run boot [Input.ble ⟨BLE_GAP_EVT_CONNECTED, 0⟩ NRF_SUCCESS]).app.m_buffer_bat = 0 ∧
    notifications (send_battery_low_warning
      (run boot [Input.ble ⟨BLE_GAP_EVT_CONNECTED, 0⟩ NRF_SUCCESS]).app NRF_SUCCESS).calls
        = [([69], 1)] ∧
    notifications (ble_evt_dispatch
      (run boot [Input.ble ⟨BLE_GAP_EVT_CONNECTED, 0⟩ NRF_SUCCESS]).app
      ⟨BLE_GATTS_EVT_WRITE, 0⟩ NRF_SUCCESS).calls = [([69], 1)] := by
  decide

/-- C11, amended: no handler writes `m_buffer_bat`, so after every sequence of
inputs from boot it still holds its initial value 0; as `0 < 255`, in every
such state `send_battery_low_warning` makes exactly one notification send, of
length 1 with payload `E` (69), whatever the send returns, and so does the
handling of every control-write event. -/
theorem battery_warning_always_sent (tr : List Input) (e : BleEvt) (send_err : Nat) :
    (run boot tr).app.m_buffer_bat = 0 ∧
    notifications (send_battery_low_warning (run boot tr).app send_err).calls = [([69], 1)] ∧
    (e.evt_id = BLE_GATTS_EVT_WRITE →
      notifications (ble_evt_dispatch (run boot tr).app e send_err).calls = [([69], 1)]) := by
  have hbat : (run boot tr).app.m_buffer_bat = 0 := run_keeps_buffer_bat tr boot
  have hlt : (run boot tr).app.m_buffer_bat < 255 := by rw [hbat]; decide
  refine ⟨hbat, ?_, ?_⟩
  · simp [send_battery_low_warning, hlt, send_checked_notifications]
  · intro he
    by_cases hs : send_err = NRF_SUCCESS
    · rw [dispatch_write_ok _ e send_err he hlt hs]; rfl
    · rw [dispatch_write_fail _ e send_err he hlt hs]; rfl

/-- Instance of C11 (amended): the trace connect, write, sample batch,
disconnect, connect from boot, followed by a control write. -/
theorem battery_warning_always_sent_witness :
    notifications (ble_evt_dispatch
      (run boot [Input.ble ⟨BLE_GAP_EVT_CONNECTED, 0⟩ 0, Input.ble ⟨BLE_GATTS_EVT_WRITE, 0⟩ 0,
        Input.saadc ⟨NRF_DRV_SAADC_EVT_DONE, List.replicate 30 60⟩ 0 0,
        Input.ble ⟨BLE_GAP_EVT_DISCONNECTED, 0⟩ 0, Input.ble ⟨BLE_GAP_EVT_CONNECTED, 1⟩ 0]).app
      ⟨BLE_GATTS_EVT_WRITE, 1⟩ 0).calls = [([69], 1)] :=
  (battery_warning_always_sent
    [Input.ble ⟨BLE_GAP_EVT_CONNECTED, 0⟩ 0, Input.ble ⟨BLE_GATTS_EVT_WRITE, 0⟩ 0,
      Input.saadc ⟨NRF_DRV_SAADC_EVT_DONE, List.replicate 30 60⟩ 0 0,
      Input.ble ⟨BLE_GAP_EVT_DISCONNECTED, 0⟩ 0, Input.ble ⟨BLE_GAP_EVT_CONNECTED, 1⟩ 0]
    ⟨BLE_GATTS_EVT_WRITE, 1⟩ 0).2.2 rfl

/-! ## Sticky-high behaviour over sequences (C12) -/

theorem saadc_filter_fault (st : App) (value send_err : Nat) :
    (saadc_filter st value send_err).fault = true → send_err ≠ NRF_SUCCESS := by
  unfold saadc_filter
  split
  · split
    · simp [send_checked_fault]
    · split
      · simp [send_checked_fault]
      · split
        · simp [send_checked_fault]
        · simp [Outcome.ret]
  · simp [Outcome.ret]

theorem filter_in_band (st : App) (r send_err : Nat) (hlow : 25 ≤ r) (hmax : r ≤ 254) :
    (saadc_filter st r send_err).app.m_old_value = max st.m_old_value r ∧
    notifications (saadc_filter st r send_err).calls = [([max st.m_old_value r], 1)] := by
  have h8 := to_uint8_of_le r hmax
  by_cases hr : st.m_old_value < r
  · have hm : max st.m_old_value r = r := Nat.max_eq_right (Nat.le_of_lt hr)
    simp [saadc_filter, hmax, hr, h8, hm, send_checked_app, send_checked_notifications]
  · have hle : r ≤ st.m_old_value := by omega
    have hm : max st.m_old_value r = st.m_old_value := Nat.max_eq_left hle
    simp [saadc_filter, hmax, hr, hle, hlow, hm, send_checked_app, send_checked_notifications]

theorem filter_seq_in_band (rs : List Nat) : ∀ st : App,
    (∀ x ∈ rs, 25 ≤ x ∧ x ≤ 254) →
    (saadc_filter_seq st (rs.map (fun x => (x, NRF_SUCCESS)))).app.m_old_value
      = rs.foldl max st.m_old_value := by
  induction rs with
  | nil => intro st _; rfl
  | cons r rest ih =>
    intro st hall
    have hr := hall r (List.mem_cons_self r rest)
    have hstep := (filter_in_band st r NRF_SUCCESS hr.1 hr.2).1
    have hnf : (saadc_filter st r NRF_SUCCESS).fault = false := by
      cases hf : (saadc_filter st r NRF_SUCCESS).fault
      · rfl
      · exact absurd rfl (saadc_filter_fault st r NRF_SUCCESS hf)
    have hrest := ih (saadc_filter st r NRF_SUCCESS).app
      (fun x hx => hall x (List.mem_cons_of_mem r hx))
    simp only [List.map_cons, saadc_filter_seq, Outcome.bind_app, hnf, List.foldl_cons]
    rw [← hstep]
    exact hrest

/-- C12 (sticky-high over sequences): let the readings `pre` already processed
and the next reading `r` all lie in `[25, 254]`, the earlier sends having
succeeded.  Then the stored `m_old_value` before `r` is the running maximum of
the initial value and `pre`; after `r` both the stored value and the single
byte sent for `r` equal the running maximum of the initial value, `pre` and
`r`; the stored value does not decrease; and a reading not above the current
peak is answered with that peak. -/
theorem sticky_high_running_max (st : App) (pre : List Nat) (r send_err : Nat)
    (hpre : ∀ x ∈ pre, 25 ≤ x ∧ x ≤ 254) (hlow : 25 ≤ r) (hmax : r ≤ 254) :
    (saadc_filter_seq st (pre.map (fun x => (x, NRF_SUCCESS)))).app.m_old_value
      = pre.foldl max st.m_old_value ∧
    (saadc_filter (saadc_filter_seq st (pre.map (fun x => (x, NRF_SUCCESS)))).app
      r send_err).app.m_old_value = (pre ++ [r]).foldl max st.m_old_value ∧
    notifications (saadc_filter (saadc_filter_seq st (pre.map (fun x => (x, NRF_SUCCESS)))).app
      r send_err).calls = [([(pre ++ [r]).foldl max st.m_old_value], 1)] ∧
    (saadc_filter_seq st (pre.map (fun x => (x, NRF_SUCCESS)))).app.m_old_value
      ≤ (saadc_filter (saadc_filter_seq st (pre.map (fun x => (x, NRF_SUCCESS)))).app
          r send_err).app.m_old_value ∧
    (r ≤ (saadc_filter_seq st (pre.map (fun x => (x, NRF_SUCCESS)))).app.m_old_value →
      notifications (saadc_filter (saadc_filter_seq st (pre.map (fun x => (x, NRF_SUCCESS)))).app
        r send_err).calls
        = [([(saadc_filter_seq st (pre.map (fun x => (x, NRF_SUCCESS)))).app.m_old_value], 1)]) := by
  have hseq := filter_seq_in_band pre st hpre
  have hstep := filter_in_band
    (saadc_filter_seq st (pre.map (fun x => (x, NRF_SUCCESS)))).app r send_err hlow hmax
  have hfold : (pre ++ [r]).foldl max st.m_old_value = max (pre.foldl max st.m_old_value) r := by
    simp [List.foldl_append]
  rw [hfold, ← hseq]
  refine ⟨rfl, hstep.1, hstep.2, ?_, ?_⟩
  · rw [hstep.1]; exact Nat.le_max_left _ _
  · intro hle
    rw [hstep.2, Nat.max_eq_left hle]

/-- Instance of C12: stored value 40, readings 50 and 30 processed, next
reading 45: state and byte sent are both 50. -/
theorem sticky_high_running_max_witness :
    (saadc_filter (saadc_filter_seq { boot with m_old_value := 40 }
      [(50, NRF_SUCCESS), (30, NRF_SUCCESS)]).app 45 NRF_SUCCESS).app.m_old_value = 50 ∧
    notifications (saadc_filter (saadc_filter_seq { boot with m_old_value := 40 }
      [(50, NRF_SUCCESS), (30, NRF_SUCCESS)]).app 45 NRF_SUCCESS).calls = [([50], 1)] :=
  have h := sticky_high_running_max { boot with m_old_value := 40 } [50, 30] 45 NRF_SUCCESS
    (by decide) (by decide) (by decide)
  ⟨h.2.1, h.2.2.1⟩

/-! ## Bound on the filter state (C13) -/

/-- The bound "length 1, bytes at most 254" carries over to a concatenation. -/
theorem bytes_bounded_append (xs ys : List (List Nat × Nat))
    (hx : ∀ p ∈ xs, p.2 = 1 ∧ ∀ b ∈ p.1, b ≤ 254)
    (hy : ∀ p ∈ ys, p.2 = 1 ∧ ∀ b ∈ p.1, b ≤ 254) :
    ∀ p ∈ xs ++ ys, p.2 = 1 ∧ ∀ b ∈ p.1, b ≤ 254 := by
  intro p hp
  rcases List.mem_append.mp hp with h | h
  · exact hx p h
  · exact hy p h

theorem filter_step_bound (st : App) (r send_err : Nat) (h : st.m_old_value ≤ 254) :
    (saadc_filter st r send_err).app.m_old_value ≤ 254 ∧
    (∀ p ∈ notifications (saadc_filter st r send_err).calls,
      p.2 = 1 ∧ ∀ b ∈ p.1, b ≤ 254) := by
  unfold saadc_filter
  split
  · rename_i hr
    have h8 := to_uint8_of_le r hr
    split
    · simp [send_checked_app, send_checked_notifications, h8, hr]
    · split
      · simp [send_checked_app, send_checked_notifications, h]
      · split
        · simp [send_checked_app, send_checked_notifications, h8, hr]
        · simp [Outcome.ret, notifications, h]
  · simp [Outcome.ret, notifications, h]

theorem filter_step_untruncated (st : App) (r send_err : Nat) :
    ((saadc_filter st r send_err).app.m_old_value = r ∨
      (saadc_filter st r send_err).app.m_old_value = st.m_old_value ∨
      (saadc_filter st r send_err).app.m_old_value = 0) ∧
    (∀ p ∈ notifications (saadc_filter st r send_err).calls,
      p = ([r], 1) ∨ p = ([st.m_old_value], 1)) := by
  unfold saadc_filter
  split
  · rename_i hr
    have h8 := to_uint8_of_le r hr
    split
    · simp [send_checked_app, send_checked_notifications, h8]
    · split
      · simp [send_checked_app, send_checked_notifications]
      · split
        · simp [send_checked_app, send_checked_notifications, h8]
        · simp [Outcome.ret, notifications]
  · simp [Outcome.ret, notifications]

theorem filter_seq_bound (rs : List (Nat × Nat)) : ∀ st : App, st.m_old_value ≤ 254 →
    (saadc_filter_seq st rs).app.m_old_value ≤ 254 ∧
    (∀ p ∈ notifications (saadc_filter_seq st rs).calls, p.2 = 1 ∧ ∀ b ∈ p.1, b ≤ 254) := by
  induction rs with
  | nil =>
    intro st h
    exact ⟨h, by simp [saadc_filter_seq, Outcome.ret, notifications]⟩
  | cons x rest ih =>
    intro st h
    have hstep := filter_step_bound st x.1 x.2 h
    have hrest := ih (saadc_filter st x.1 x.2).app hstep.1
    simp only [saadc_filter_seq, Outcome.bind_app, Outcome.bind_calls]
    by_cases hf : (saadc_filter st x.1 x.2).fault = true
    · simp only [hf, if_true]
      exact hstep
    · simp only [hf, if_false]
      refine ⟨hrest.1, ?_⟩
      have happ := notifications_append (saadc_filter st x.1 x.2).calls
        (saadc_filter_seq (saadc_filter st x.1 x.2).app rest).calls
      intro p hp
      exact bytes_bounded_append _ _ hstep.2 hrest.2 p (happ ▸ hp)

theorem step_old_value_bound (st : App) (i : Input) (h : st.m_old_value ≤ 254) :
    (step st i).app.m_old_value ≤ 254 := by
  cases i with
  | ble e send_err =>
    simp only [step]
    apply dispatch_cases (fun o => o.app.m_old_value ≤ 254) st e send_err
    · intro _; exact h
    · intro _; exact h
    · intro _ _ _; exact h
    · intro _ _ _; exact h
    · intro _ _; exact h
    · intro _ _ _; exact h
  | saadc p_event convert_err send_err =>
    have hf := (filter_step_bound st (batch_mean p_event.p_buffer) send_err h).1
    simp only [step]
    unfold saadc_event_handler
    by_cases ht : p_event.type = NRF_DRV_SAADC_EVT_DONE
    · by_cases hc : convert_err = NRF_SUCCESS
      · simpa [ht, hc, APP_ERROR_CHECK, Outcome.bind, Outcome.call, Outcome.ret] using hf
      · simpa [ht, hc, APP_ERROR_CHECK, Outcome.bind, Outcome.call, Outcome.ret] using h
    · simpa [ht, Outcome.ret] using h

theorem run_old_value_bound (tr : List Input) : ∀ st : App, st.m_old_value ≤ 254 →
    (run st tr).app.m_old_value ≤ 254 := by
  induction tr with
  | nil => intro st h; exact h
  | cons i rest ih =>
    intro st h
    have hstep := step_old_value_bound st i h
    have hrest := ih (step st i).app hstep
    simp only [run, Outcome.bind_app]
    by_cases hf : (step st i).fault = true
    · simpa [hf] using hstep
    · simp only [hf, if_false]
      exact hrest

/-- C13 (filter state bound): starting from the boot state, after any finite
sequence of averaged readings (any natural numbers, whatever the sends
return) `m_old_value` is at most 254, and every notification the filter has
sent has length 1 and a byte of at most 254, so 255 is never transmitted.  In
any state, one run of the filter stores the reading itself, the old value or
0, and sends the reading itself or the old value: the narrowing to a byte
never changes the value.  The bound on `m_old_value` also holds after every
sequence of BLE and SAADC inputs from boot. -/
theorem filter_state_at_most_254 (rs : List (Nat × Nat)) (tr : List Input) :
    (saadc_filter_seq boot rs).app.m_old_value ≤ 254 ∧
    (∀ p ∈ notifications (saadc_filter_seq boot rs).calls, p.2 = 1 ∧ ∀ b ∈ p.1, b ≤ 254) ∧
    (∀ (st : App) (r send_err : Nat),
      ((saadc_filter st r send_err).app.m_old_value = r ∨
        (saadc_filter st r send_err).app.m_old_value = st.m_old_value ∨
        (saadc_filter st r send_err).app.m_old_value = 0) ∧
      (∀ p ∈ notifications (saadc_filter st r send_err).calls,
        p = ([r], 1) ∨ p = ([st.m_old_value], 1))) ∧
    (run boot tr).app.m_old_value ≤ 254 := by
  have hboot : boot.m_old_value ≤ 254 := by decide
  have hseq := filter_seq_bound rs boot hboot
  exact ⟨hseq.1, hseq.2, filter_step_untruncated, run_old_value_bound tr boot hboot⟩

/-- Instance of C13: the readings 254, 65535, 255, 10, 200 from boot; the
notifications sent are 254, 10 and 200. -/
theorem filter_state_at_most_254_witness :
    (([254], 1) ∈ notifications (saadc_filter_seq boot
        [(254, 0), (65535, 0), (255, 0), (10, 0), (200, 0)]).calls) ∧
    ((([254], 1) : List Nat × Nat).2 = 1 ∧ ∀ b ∈ (([254], 1) : List Nat × Nat).1, b ≤ 254) :=
  ⟨by decide,
    (filter_state_at_most_254 [(254, 0), (65535, 0), (255, 0), (10, 0), (200, 0)] []).2.1
      ([254], 1) (by decide)⟩

end ParkingSensor
